import Mathlib

/-!
Shallow embedding of the ices-hour-hero data layer: the three tables
(`profiles`, `events`, `attendance`), the row-level-security policies that
gate client writes, the `update_total_hours` trigger, and the client-side
operations from the dashboard components (`signUpForEvent`,
`updateAttendanceStatus`, `updateUserRole`, event create/update/delete).

UUID columns are modelled as `Nat` identifiers; SQL `INTEGER` columns
(`hours_value`, `hours_awarded`, `total_hours`) as `Int`; timestamps as
`String` payloads (they never influence the verified logic).
-/

namespace IcesHourHero

/-- `CREATE TYPE public.user_role AS ENUM ('admin', 'officer', 'member')` -/
inductive Role where
  | admin
  | officer
  | member
deriving DecidableEq

/-- `CREATE TYPE public.attendance_status AS ENUM ('pending', 'approved', 'denied')` -/
inductive AttStatus where
  | pending
  | approved
  | denied
deriving DecidableEq

/-- Row of `public.profiles` (id, user_id, name, email, role, total_hours). -/
structure Profile where
  id : Nat
  user_id : Nat
  name : String
  email : String
  role : Role
  total_hours : Int
deriving DecidableEq

/-- Row of `public.events` (id, title, date_time, location, description,
hours_value, created_by). -/
structure Event where
  id : Nat
  title : String
  date_time : String
  location : String
  description : String
  hours_value : Int
  created_by : Nat
deriving DecidableEq

/-- Row of `public.attendance` (id, event_id, user_id, status, hours_awarded,
verified_by). -/
structure Attendance where
  id : Nat
  event_id : Nat
  user_id : Nat
  status : AttStatus
  hours_awarded : Int
  verified_by : Option Nat
deriving DecidableEq

/-- The persistent store: the three tables. -/
structure DB where
  profiles : List Profile
  events : List Event
  attendance : List Attendance
deriving DecidableEq

/-- Errors surfaced by the store: a row-level-security rejection or a
constraint (unique / check) violation. -/
inductive DBError where
  | rlsViolation
  | uniqueViolation
deriving DecidableEq

/-- `UPDATE public.profiles SET total_hours = total_hours + h WHERE user_id = uid` -/
def add_hours (profiles : List Profile) (uid : Nat) (h : Int) : List Profile :=
  profiles.map fun p =>
    if p.user_id == uid then { p with total_hours := p.total_hours + h } else p

/-- `UPDATE public.profiles SET total_hours = GREATEST(0, total_hours - h)
WHERE user_id = uid` -/
def subtract_hours_floored (profiles : List Profile) (uid : Nat) (h : Int) : List Profile :=
  profiles.map fun p =>
    if p.user_id == uid then { p with total_hours := max 0 (p.total_hours - h) } else p

/-- The trigger function `public.update_total_hours()`, fired `AFTER UPDATE ON
public.attendance FOR EACH ROW` with the row's OLD and NEW images.  The SQL
guard `OLD.status IS NULL OR OLD.status != 'approved'` collapses to
`OLD.status != 'approved'` here because `status` is `NOT NULL` and OLD always
exists on UPDATE. -/
def update_total_hours (old new : Attendance) (profiles : List Profile) : List Profile :=
  let ps :=
    if new.status = AttStatus.approved ∧ old.status ≠ AttStatus.approved then
      add_hours profiles new.user_id new.hours_awarded
    else profiles
  if old.status = AttStatus.approved ∧ new.status ≠ AttStatus.approved then
    subtract_hours_floored ps new.user_id old.hours_awarded
  else ps

/-- `SELECT total_hours FROM public.profiles WHERE user_id = uid` (first match;
the schema makes `user_id` unique). -/
def get_total_hours (profiles : List Profile) (uid : Nat) : Option Int :=
  (profiles.find? fun p => p.user_id == uid).map fun p => p.total_hours

/-- The security-definer helper `public.get_current_user_role()`:
`SELECT role FROM public.profiles WHERE user_id = auth.uid()`. -/
def get_current_user_role (profiles : List Profile) (uid : Nat) : Option Role :=
  (profiles.find? fun p => p.user_id == uid).map fun p => p.role

/-! ### Row-level-security policies -/

/-- `CREATE POLICY "Users can update their own profile" ON public.profiles FOR
UPDATE USING (auth.uid() = user_id)` — the only UPDATE policy on `profiles`;
it checks row ownership and nothing else (no role condition, no column
restriction, no WITH CHECK). -/
def profiles_update_policy (uid : Nat) (row : Profile) : Bool :=
  uid == row.user_id

/-- `CREATE POLICY "Users can sign up for events" ON public.attendance FOR
INSERT WITH CHECK (auth.uid() = user_id)` — ownership is the only condition;
the inserted `status` and `hours_awarded` are not constrained. -/
def attendance_insert_policy (uid : Nat) (row_user_id : Nat) : Bool :=
  uid == row_user_id

/-- `CREATE POLICY "Officers and admins can update attendance" ... FOR UPDATE
USING (EXISTS (SELECT 1 FROM public.profiles WHERE user_id = auth.uid() AND
role IN ('admin', 'officer')))`. -/
def attendance_update_policy (profiles : List Profile) (uid : Nat) : Bool :=
  profiles.any fun p =>
    p.user_id == uid && (p.role == Role.admin || p.role == Role.officer)

/-- The `EXISTS (SELECT 1 FROM public.profiles WHERE user_id = auth.uid() AND
role = 'admin')` condition shared by the three `events` policies. -/
def is_admin (profiles : List Profile) (uid : Nat) : Bool :=
  profiles.any fun p => p.user_id == uid && p.role == Role.admin

/-! ### Store operations (client calls filtered by the policies) -/

/-- Fields of an `INSERT INTO public.attendance` request; `status` and
`hours_awarded` fall back to their column defaults (`'pending'` and `0`)
when the client omits them. -/
structure AttendanceInsert where
  event_id : Nat
  user_id : Nat
  status : Option AttStatus
  hours_awarded : Option Int
deriving DecidableEq

/-- Insert into `attendance`: the RLS INSERT policy, then the
`UNIQUE(event_id, user_id)` constraint, then the row is appended with column
defaults applied (`status DEFAULT 'pending'`, `hours_awarded DEFAULT 0`,
`verified_by` NULL).  `newId` stands for the generated `gen_random_uuid()`.
Returns the (possibly unchanged) store and the error, if any. -/
def insert_attendance (db : DB) (uid : Nat) (req : AttendanceInsert) (newId : Nat) :
    DB × Option DBError :=
  if ¬ attendance_insert_policy uid req.user_id then
    (db, some DBError.rlsViolation)
  else if db.attendance.any fun a =>
      a.event_id == req.event_id && a.user_id == req.user_id then
    (db, some DBError.uniqueViolation)
  else
    ({ db with attendance := db.attendance ++
        [{ id := newId, event_id := req.event_id, user_id := req.user_id,
           status := req.status.getD AttStatus.pending,
           hours_awarded := req.hours_awarded.getD 0,
           verified_by := none }] }, none)

/-- `signUpForEvent(eventId, hoursValue)` in MemberDashboard: inserts
`{ event_id: eventId, user_id: user.id, hours_awarded: hoursValue }` with no
`status` field.  At its call site `hoursValue` is `event.hours_value`. -/
def signUpForEvent (db : DB) (uid : Nat) (eventId : Nat) (hoursValue : Int) (newId : Nat) :
    DB × Option DBError :=
  insert_attendance db uid
    { event_id := eventId, user_id := uid, status := none,
      hours_awarded := some hoursValue } newId

/-- Rebuild the `attendance` table applying `f` to every row matching
`attId`, firing the `update_user_total_hours` trigger (`AFTER UPDATE ... FOR
EACH ROW`) once per updated row.  Returns the new rows and profiles. -/
def update_attendance_rows (rows : List Attendance) (profiles : List Profile)
    (attId : Nat) (f : Attendance → Attendance) : List Attendance × List Profile :=
  match rows with
  | [] => ([], profiles)
  | a :: rest =>
    if a.id == attId then
      let a2 := f a
      let profiles2 := update_total_hours a a2 profiles
      let r := update_attendance_rows rest profiles2 attId f
      (a2 :: r.1, r.2)
    else
      let r := update_attendance_rows rest profiles attId f
      (a :: r.1, r.2)

/-- A client `UPDATE public.attendance ... WHERE id = attId`.  The UPDATE
policy's USING condition does not mention the row, so it either admits every
row or filters them all out (zero rows updated, no error). -/
def client_update_attendance (db : DB) (uid : Nat) (attId : Nat)
    (f : Attendance → Attendance) : DB :=
  if attendance_update_policy db.profiles uid then
    let r := update_attendance_rows db.attendance db.profiles attId f
    { db with attendance := r.1, profiles := r.2 }
  else db

/-- `updateAttendanceStatus(attendanceId, status)` in OfficerDashboard:
`update({ status, verified_by: user.id }).eq('id', attendanceId)`. -/
def updateAttendanceStatus (db : DB) (uid : Nat) (attId : Nat) (st : AttStatus) : DB :=
  client_update_attendance db uid attId
    fun a => { a with status := st, verified_by := some uid }

/-- A client `UPDATE public.profiles ... WHERE user_id = target`: each row is
updated when it matches the WHERE clause and passes the UPDATE policy
(`auth.uid() = user_id`); there is no WITH CHECK on the new row. -/
def client_update_profiles (db : DB) (uid : Nat) (target : Nat)
    (f : Profile → Profile) : DB :=
  { db with profiles := db.profiles.map fun p =>
      if p.user_id == target && profiles_update_policy uid p then f p else p }

/-- `updateUserRole(userId, newRole)` in AdminDashboard:
`update({ role: newRole }).eq('user_id', userId)`. -/
def updateUserRole (db : DB) (uid : Nat) (target : Nat) (newRole : Role) : DB :=
  client_update_profiles db uid target fun p => { p with role := newRole }

/-- `INSERT INTO public.events`: the "Admins can insert events" WITH CHECK
policy, then the row is appended. -/
def insert_event (db : DB) (uid : Nat) (ev : Event) : DB × Option DBError :=
  if is_admin db.profiles uid then
    ({ db with events := db.events ++ [ev] }, none)
  else (db, some DBError.rlsViolation)

/-- A client `UPDATE public.events ... WHERE id = eventId`: the "Admins can
update events" USING condition is row-independent, so a non-admin's update
touches zero rows. -/
def client_update_events (db : DB) (uid : Nat) (eventId : Nat)
    (f : Event → Event) : DB :=
  if is_admin db.profiles uid then
    { db with events := db.events.map fun e => if e.id == eventId then f e else e }
  else db

/-- `deleteEvent(eventId)` through the "Admins can delete events" policy.
`attendance.event_id REFERENCES events(id) ON DELETE CASCADE` removes the
dependent attendance rows; no trigger fires on DELETE (the hour-accounting
trigger is `AFTER UPDATE` only), so `profiles` is untouched. -/
def delete_event (db : DB) (uid : Nat) (eventId : Nat) : DB :=
  if is_admin db.profiles uid then
    { db with events := db.events.filter fun e => !(e.id == eventId),
              attendance := db.attendance.filter fun a => !(a.event_id == eventId) }
  else db

/-- One attendance status transition request, as issued by
`updateAttendanceStatus`: the acting caller, the record, the new status. -/
structure StatusUpdate where
  caller : Nat
  att_id : Nat
  status : AttStatus
deriving DecidableEq

/-- Run a sequence of attendance status transitions against the store. -/
def run_updates (db : DB) (ops : List StatusUpdate) : DB :=
  ops.foldl (fun d op => updateAttendanceStatus d op.caller op.att_id op.status) db

/-- The store invariant of interest: all total-hours counters and all
hours-awarded values are non-negative. -/
def DBNonneg (db : DB) : Prop :=
  (∀ p ∈ db.profiles, 0 ≤ p.total_hours) ∧ (∀ a ∈ db.attendance, 0 ≤ a.hours_awarded)

/-! ### Concrete rows used in closed instances -/

/-- A member profile (user 1), zero hours. -/
def pMember : Profile := ⟨1, 1, "", "", Role.member, 0⟩

/-- An officer profile (user 2), zero hours. -/
def pOfficer : Profile := ⟨2, 2, "", "", Role.officer, 0⟩

/-- An admin profile (user 3), zero hours. -/
def pAdmin : Profile := ⟨3, 3, "", "", Role.admin, 0⟩

/-- An event (id 5) worth 3 hours, created by user 3. -/
def evSample : Event := ⟨5, "", "", "", "", 3, 3⟩

/-- A pending attendance record (id 10) of user 1 on event 5, 3 hours. -/
def attPending : Attendance := ⟨10, 5, 1, AttStatus.pending, 3, none⟩

/-- The same attendance record after approval by officer 2. -/
def attApproved : Attendance := ⟨10, 5, 1, AttStatus.approved, 3, some 2⟩

/-! ### Helper lemmas -/

/-- `add_hours` changes the looked-up total of the targeted user by `+ h`. -/
theorem get_total_hours_add (ps : List Profile) (u : Nat) (h : Int) :
    get_total_hours (add_hours ps u h) u
      = (get_total_hours ps u).map fun t => t + h := by
  induction ps with
  | nil => rfl
  | cons p rest ih =>
    cases hp : p.user_id == u with
    | true => simp [add_hours, get_total_hours, List.find?, hp]
    | false =>
      simp only [add_hours, List.map, get_total_hours, List.find?, hp, if_neg,
        Bool.false_eq_true, not_false_iff, if_false] at ih ⊢
      exact ih

/-- `subtract_hours_floored` changes the looked-up total of the targeted user
to `max 0 (t - h)`. -/
theorem get_total_hours_subtract (ps : List Profile) (u : Nat) (h : Int) :
    get_total_hours (subtract_hours_floored ps u h) u
      = (get_total_hours ps u).map fun t => max 0 (t - h) := by
  induction ps with
  | nil => rfl
  | cons p rest ih =>
    cases hp : p.user_id == u with
    | true => simp [subtract_hours_floored, get_total_hours, List.find?, hp]
    | false =>
      simp only [subtract_hours_floored, List.map, get_total_hours, List.find?, hp,
        if_neg, Bool.false_eq_true, not_false_iff, if_false] at ih ⊢
      exact ih

/-- The rows produced by a filtered attendance update are exactly the map of
`f` over the matching rows. -/
theorem update_attendance_rows_fst (rows : List Attendance) (ps : List Profile)
    (attId : Nat) (f : Attendance → Attendance) :
    (update_attendance_rows rows ps attId f).1
      = rows.map fun a => if a.id == attId then f a else a := by
  induction rows generalizing ps with
  | nil => rfl
  | cons a rest ih =>
    cases ha : a.id == attId with
    | true =>
      have hid : a.id = attId := by simpa using ha
      simp [update_attendance_rows, ha, ih, hid]
    | false =>
      have hid : a.id ≠ attId := by simpa using ha
      simp [update_attendance_rows, ha, ih, hid]

/-- With unique `user_id`s, an `EXISTS`-style scan of `profiles` for the
caller with a role predicate equals evaluating that predicate on the role
returned by `get_current_user_role`. -/
theorem role_lookup_any (profiles : List Profile) (uid : Nat) (pred : Role → Bool)
    (huniq : List.Pairwise (fun p q => p.user_id ≠ q.user_id) profiles) :
    (profiles.any fun p => p.user_id == uid && pred p.role)
      = ((get_current_user_role profiles uid).map pred).getD false := by
  induction profiles with
  | nil => rfl
  | cons p rest ih =>
    rcases List.pairwise_cons.mp huniq with ⟨h1, h2⟩
    cases hu : p.user_id == uid with
    | true =>
      have hrest : rest.any (fun q => q.user_id == uid && pred q.role) = false := by
        rw [List.any_eq_false]
        intro q hq
        have hpu : p.user_id = uid := by simpa using hu
        have hne : q.user_id ≠ uid := by
          intro hqe
          exact h1 q hq (by rw [hqe, hpu])
        simp [hne]
      simp [List.any, get_current_user_role, List.find?, hu, hrest]
    | false =>
      simp only [List.any, hu, Bool.false_and, Bool.false_or,
        get_current_user_role, List.find?] at ih ⊢
      exact ih h2

/-- Adding a non-negative amount preserves non-negativity of all totals. -/
theorem add_hours_nonneg (ps : List Profile) (u : Nat) (h : Int)
    (hps : ∀ p ∈ ps, 0 ≤ p.total_hours) (hh : 0 ≤ h) :
    ∀ p ∈ add_hours ps u h, 0 ≤ p.total_hours := by
  intro p hp
  rcases List.mem_map.mp hp with ⟨q, hq, hfq⟩
  by_cases hqu : q.user_id == u
  · rw [← hfq]
    simp only [hqu, if_true]
    exact add_nonneg (hps q hq) hh
  · rw [← hfq]
    simp only [hqu, if_false]
    exact hps q hq

/-- The floored subtraction keeps every total non-negative. -/
theorem subtract_hours_floored_nonneg (ps : List Profile) (u : Nat) (h : Int)
    (hps : ∀ p ∈ ps, 0 ≤ p.total_hours) :
    ∀ p ∈ subtract_hours_floored ps u h, 0 ≤ p.total_hours := by
  intro p hp
  rcases List.mem_map.mp hp with ⟨q, hq, hfq⟩
  by_cases hqu : q.user_id == u
  · rw [← hfq]
    simp only [hqu, if_true]
    exact le_max_left 0 _
  · rw [← hfq]
    simp only [hqu, if_false]
    exact hps q hq

/-- The trigger preserves non-negative totals whenever the (post-update)
record's hours-awarded value is non-negative. -/
theorem update_total_hours_nonneg (old new : Attendance) (ps : List Profile)
    (hps : ∀ p ∈ ps, 0 ≤ p.total_hours) (hh : 0 ≤ new.hours_awarded) :
    ∀ p ∈ update_total_hours old new ps, 0 ≤ p.total_hours := by
  unfold update_total_hours
  split
  · split
    · exact subtract_hours_floored_nonneg _ _ _ (add_hours_nonneg _ _ _ hps hh)
    · exact add_hours_nonneg _ _ _ hps hh
  · split
    · exact subtract_hours_floored_nonneg _ _ _ hps
    · exact hps

/-- A filtered attendance update through a field function that keeps
`hours_awarded` fixed preserves both non-negativity invariants. -/
theorem update_attendance_rows_nonneg (rows : List Attendance) (ps : List Profile)
    (attId : Nat) (f : Attendance → Attendance)
    (hf : ∀ a, (f a).hours_awarded = a.hours_awarded)
    (hrows : ∀ a ∈ rows, 0 ≤ a.hours_awarded)
    (hps : ∀ p ∈ ps, 0 ≤ p.total_hours) :
    (∀ a ∈ (update_attendance_rows rows ps attId f).1, 0 ≤ a.hours_awarded)
      ∧ ∀ p ∈ (update_attendance_rows rows ps attId f).2, 0 ≤ p.total_hours := by
  induction rows generalizing ps with
  | nil =>
    refine ⟨?_, hps⟩
    intro a ha
    simp [update_attendance_rows] at ha
  | cons a rest ih =>
    have ha0 : 0 ≤ a.hours_awarded := hrows a (List.mem_cons_self a rest)
    have hrest : ∀ b ∈ rest, 0 ≤ b.hours_awarded :=
      fun b hb => hrows b (List.mem_cons_of_mem a hb)
    cases hid : a.id == attId with
    | true =>
      have hfa : 0 ≤ (f a).hours_awarded := by rw [hf a]; exact ha0
      have hps2 : ∀ p ∈ update_total_hours a (f a) ps, 0 ≤ p.total_hours :=
        update_total_hours_nonneg a (f a) ps hps hfa
      have hrec := ih (update_total_hours a (f a) ps) hrest hps2
      refine ⟨?_, ?_⟩
      · intro b hb
        simp only [update_attendance_rows, hid, if_true] at hb
        rcases List.mem_cons.mp hb with hb1 | hb2
        · rw [hb1]; exact hfa
        · exact hrec.1 b hb2
      · intro p hp
        simp only [update_attendance_rows, hid, if_true] at hp
        exact hrec.2 p hp
    | false =>
      have hrec := ih ps hrest hps
      refine ⟨?_, ?_⟩
      · intro b hb
        simp only [update_attendance_rows, hid, Bool.false_eq_true, if_false] at hb
        rcases List.mem_cons.mp hb with hb1 | hb2
        · rw [hb1]; exact ha0
        · exact hrec.1 b hb2
      · intro p hp
        simp only [update_attendance_rows, hid, Bool.false_eq_true, if_false] at hp
        exact hrec.2 p hp

/-- One attendance status transition preserves the store invariant. -/
theorem updateAttendanceStatus_nonneg (db : DB) (uid attId : Nat) (st : AttStatus)
    (h : DBNonneg db) : DBNonneg (updateAttendanceStatus db uid attId st) := by
  unfold updateAttendanceStatus client_update_attendance
  split
  · have hr := update_attendance_rows_nonneg db.attendance db.profiles attId
      (fun a => { a with status := st, verified_by := some uid })
      (fun a => rfl) h.2 h.1
    exact ⟨hr.2, hr.1⟩
  · exact h

/-! ### Claims -/

/-- C1: on any update of an attendance record's status, the hour-accounting
rule applies exactly: entering `approved` adds the record's hours-awarded
value to the owning profile's total, leaving `approved` subtracts the
pre-update hours-awarded value floored at zero, and every other transition
leaves the profiles table unchanged. -/
theorem hour_accounting_rule (old new : Attendance) (ps : List Profile) :
    (new.status = AttStatus.approved → old.status ≠ AttStatus.approved →
      get_total_hours (update_total_hours old new ps) new.user_id
        = (get_total_hours ps new.user_id).map fun t => t + new.hours_awarded)
    ∧ (old.status = AttStatus.approved → new.status ≠ AttStatus.approved →
      get_total_hours (update_total_hours old new ps) new.user_id
        = (get_total_hours ps new.user_id).map fun t => max 0 (t - old.hours_awarded))
    ∧ ((new.status = AttStatus.approved ↔ old.status = AttStatus.approved) →
      update_total_hours old new ps = ps) := by
  refine ⟨?_, ?_, ?_⟩
  · intro h1 h2
    have hc2 : ¬ (old.status = AttStatus.approved ∧ new.status ≠ AttStatus.approved) :=
      fun hc => hc.2 h1
    simp only [update_total_hours, if_pos (And.intro h1 h2), if_neg hc2]
    exact get_total_hours_add ps new.user_id new.hours_awarded
  · intro h1 h2
    have hc1 : ¬ (new.status = AttStatus.approved ∧ old.status ≠ AttStatus.approved) :=
      fun hc => h2 hc.1
    simp only [update_total_hours, if_neg hc1, if_pos (And.intro h1 h2)]
    exact get_total_hours_subtract ps new.user_id old.hours_awarded
  · intro hiff
    have hc1 : ¬ (new.status = AttStatus.approved ∧ old.status ≠ AttStatus.approved) :=
      fun hc => hc.2 (hiff.mp hc.1)
    have hc2 : ¬ (old.status = AttStatus.approved ∧ new.status ≠ AttStatus.approved) :=
      fun hc => hc.2 (hiff.mpr hc.1)
    simp only [update_total_hours, if_neg hc1, if_neg hc2]

/-- Closed instance of C1: approving user 1's pending 3-hour record raises a
2-hour total to 5. -/
theorem hour_accounting_rule_witness :
    get_total_hours
      (update_total_hours attPending attApproved [⟨1, 1, "", "", Role.member, 2⟩]) 1
      = some 5 := by
  have h := (hour_accounting_rule attPending attApproved
    [⟨1, 1, "", "", Role.member, 2⟩]).1 rfl (by decide)
  rw [show attApproved.user_id = 1 from rfl] at h
  rw [h]
  decide

/-- C2 counterexample: a boundary-accepted sequence drives a total below
zero.  An admin inserts an event whose `hours_value` is `-1` (no policy or
constraint restricts it), member 1 signs up (hours-awarded copies the event
value), and officer 2 approves: member 1's total-hours becomes `-1`. -/
theorem total_hours_negative_reachable :
    get_total_hours
      (updateAttendanceStatus
        ((signUpForEvent
          ((insert_event (DB.mk [pMember, pOfficer, pAdmin] [] []) 3
            ⟨5, "", "", "", "", -1, 3⟩).1)
          1 5 (-1) 10).1)
        2 10 AttStatus.approved).profiles 1 = some (-1) ∧ (-1 : Int) < 0 := by
  exact ⟨by decide, by decide⟩

/-- C2 (amended): whenever every attendance record's hours-awarded value and
every profile's total-hours are non-negative (in particular when all totals
start at zero), every profile's total-hours stays ≥ 0 across any sequence of
attendance status transitions. -/
theorem total_hours_nonneg_of_transitions (db : DB) (ops : List StatusUpdate)
    (h : DBNonneg db) :
    ∀ p ∈ (run_updates db ops).profiles, 0 ≤ p.total_hours := by
  have main : DBNonneg (run_updates db ops) := by
    induction ops generalizing db with
    | nil => exact h
    | cons op rest ih =>
      exact ih _ (updateAttendanceStatus_nonneg db op.caller op.att_id op.status h)
  exact main.1

/-- Closed instance of the amended C2: from zero totals and a 3-hour pending
record, approval yields a total of 3, which is non-negative. -/
theorem total_hours_nonneg_of_transitions_witness :
    (0 : Int) ≤ (Profile.mk 1 1 "" "" Role.member 3).total_hours :=
  total_hours_nonneg_of_transitions
    (DB.mk [pMember, pOfficer] [evSample] [attPending])
    [⟨2, 10, AttStatus.approved⟩]
    ⟨by decide, by decide⟩
    (Profile.mk 1 1 "" "" Role.member 3)
    (by decide)

/-- C3 evaluation at the failing input: the only UPDATE policy on `profiles`
checks row ownership, so (first conjunct) member 1's direct client write
setting their own `role` to admin and `total_hours` to 999 is accepted and
applied, and (second conjunct) admin 2's `updateUserRole` on member 1's row
is filtered to zero rows, leaving the store unchanged — both contrary to the
claim. -/
theorem profile_self_write_accepted :
    (client_update_profiles (DB.mk [pMember] [] []) 1 1
        fun p => { p with role := Role.admin, total_hours := 999 }).profiles
      = [⟨1, 1, "", "", Role.admin, 999⟩]
    ∧ updateUserRole (DB.mk [pMember, ⟨2, 2, "", "", Role.admin, 0⟩] [] [])
        2 1 Role.officer
      = DB.mk [pMember, ⟨2, 2, "", "", Role.admin, 0⟩] [] [] := by
  exact ⟨by decide, by decide⟩

/-- C4 evaluation at the failing input: the INSERT policy on `attendance`
checks only that the caller inserts a row for themself, so member 1's insert
that explicitly sets `status` to `approved` is accepted (no error) and the
created record's status is `approved`, not `pending`. -/
theorem attendance_insert_approved_accepted :
    insert_attendance (DB.mk [pMember] [evSample] []) 1
        ⟨5, 1, some AttStatus.approved, some 3⟩ 10
      = (DB.mk [pMember] [evSample] [⟨10, 5, 1, AttStatus.approved, 3, none⟩],
          none) := by
  decide

/-- C9: an update that rewrites only the hours-awarded value of an
already-approved record fires neither branch of the trigger, so the profiles
table — in particular the owner's total-hours — is unchanged. -/
theorem hours_edit_while_approved_no_adjust (a : Attendance) (h : Int)
    (ps : List Profile) (happ : a.status = AttStatus.approved) :
    update_total_hours a { a with hours_awarded := h } ps = ps := by
  have hc1 : ¬ (({ a with hours_awarded := h } : Attendance).status = AttStatus.approved
      ∧ a.status ≠ AttStatus.approved) := fun hc => hc.2 happ
  have hc2 : ¬ (a.status = AttStatus.approved
      ∧ ({ a with hours_awarded := h } : Attendance).status ≠ AttStatus.approved) :=
    fun hc => hc.2 happ
  simp only [update_total_hours, if_neg hc1, if_neg hc2]

/-- Closed instance of C9: rewriting the approved record's hours from 3 to 7
leaves the owner's 5-hour total untouched. -/
theorem hours_edit_while_approved_no_adjust_witness :
    update_total_hours attApproved { attApproved with hours_awarded := 7 }
        [⟨1, 1, "", "", Role.member, 5⟩]
      = [⟨1, 1, "", "", Role.member, 5⟩] :=
  hours_edit_while_approved_no_adjust attApproved 7
    [⟨1, 1, "", "", Role.member, 5⟩] rfl

/-- C5: with unique profile user-ids, an attendance status update takes
effect precisely when the caller's role, resolved from the caller's own
profile row, is officer or admin: such a caller's update rewrites every
matching record's status (and verifier), while any other caller's update
leaves the store untouched. -/
theorem attendance_update_auth (db : DB) (uid attId : Nat) (st : AttStatus)
    (huniq : List.Pairwise (fun p q => p.user_id ≠ q.user_id) db.profiles) :
    ((get_current_user_role db.profiles uid = some Role.officer
        ∨ get_current_user_role db.profiles uid = some Role.admin) →
      (updateAttendanceStatus db uid attId st).attendance
        = db.attendance.map fun a =>
            if a.id == attId then { a with status := st, verified_by := some uid }
            else a)
    ∧ (¬ (get_current_user_role db.profiles uid = some Role.officer
        ∨ get_current_user_role db.profiles uid = some Role.admin) →
      updateAttendanceStatus db uid attId st = db) := by
  have hpol : attendance_update_policy db.profiles uid
      = ((get_current_user_role db.profiles uid).map
          fun r => r == Role.admin || r == Role.officer).getD false :=
    role_lookup_any db.profiles uid
      (fun r => r == Role.admin || r == Role.officer) huniq
  constructor
  · intro hrole
    have hp : attendance_update_policy db.profiles uid = true := by
      rcases hrole with h | h <;> rw [hpol, h] <;> rfl
    unfold updateAttendanceStatus client_update_attendance
    rw [if_pos hp]
    exact update_attendance_rows_fst db.attendance db.profiles attId _
  · intro hrole
    have hp : attendance_update_policy db.profiles uid = false := by
      cases hr : get_current_user_role db.profiles uid with
      | none => rw [hpol, hr]; rfl
      | some r =>
        cases r with
        | admin => exact absurd (Or.inr hr) hrole
        | officer => exact absurd (Or.inl hr) hrole
        | member => rw [hpol, hr]; rfl
    unfold updateAttendanceStatus client_update_attendance
    rw [if_neg (by rw [hp]; exact Bool.false_ne_true)]

/-- Closed instance of C5: officer 2 approves member 1's pending record and
the record's status and verifier change accordingly. -/
theorem attendance_update_auth_witness :
    (updateAttendanceStatus (DB.mk [pMember, pOfficer] [evSample] [attPending])
        2 10 AttStatus.approved).attendance
      = [⟨10, 5, 1, AttStatus.approved, 3, some 2⟩] := by
  have h := (attendance_update_auth
    (DB.mk [pMember, pOfficer] [evSample] [attPending])
    2 10 AttStatus.approved (by decide)).1 (Or.inl (by decide))
  rw [h]
  decide

/-- C6: with unique profile user-ids, the admin-gate on the `events` table is
exactly a check that the caller's own profile role is admin; a non-admin's
insert is rejected and a non-admin's update or delete leaves the store
unchanged, while an admin's insert, update and delete take effect. -/
theorem event_ops_admin_only (db : DB) (uid : Nat) (ev : Event) (eventId : Nat)
    (f : Event → Event)
    (huniq : List.Pairwise (fun p q => p.user_id ≠ q.user_id) db.profiles) :
    (is_admin db.profiles uid = true
        ↔ get_current_user_role db.profiles uid = some Role.admin)
    ∧ (get_current_user_role db.profiles uid ≠ some Role.admin →
        insert_event db uid ev = (db, some DBError.rlsViolation)
        ∧ client_update_events db uid eventId f = db
        ∧ delete_event db uid eventId = db)
    ∧ (get_current_user_role db.profiles uid = some Role.admin →
        insert_event db uid ev = ({ db with events := db.events ++ [ev] }, none)
        ∧ client_update_events db uid eventId f
            = { db with events := db.events.map (fun e =>
                if e.id == eventId then f e else e) }
        ∧ delete_event db uid eventId
            = { db with
                events := db.events.filter (fun e => !(e.id == eventId)),
                attendance := db.attendance.filter
                  (fun a => !(a.event_id == eventId)) }) := by
  have hpol : is_admin db.profiles uid
      = ((get_current_user_role db.profiles uid).map
          fun r => r == Role.admin).getD false :=
    role_lookup_any db.profiles uid (fun r => r == Role.admin) huniq
  have hiff : is_admin db.profiles uid = true
      ↔ get_current_user_role db.profiles uid = some Role.admin := by
    rw [hpol]
    cases hr : get_current_user_role db.profiles uid with
    | none => simp
    | some r => cases r <;> simp
  refine ⟨hiff, ?_, ?_⟩
  · intro hne
    have hp : is_admin db.profiles uid = false := by
      cases hb : is_admin db.profiles uid
      · rfl
      · exact absurd (hiff.mp hb) hne
    have hnp : ¬ is_admin db.profiles uid = true := by
      rw [hp]; exact Bool.false_ne_true
    refine ⟨?_, ?_, ?_⟩
    · unfold insert_event; rw [if_neg hnp]
    · unfold client_update_events; rw [if_neg hnp]
    · unfold delete_event; rw [if_neg hnp]
  · intro he
    have hp : is_admin db.profiles uid = true := hiff.mpr he
    refine ⟨?_, ?_, ?_⟩
    · unfold insert_event; rw [if_pos hp]
    · unfold client_update_events; rw [if_pos hp]
    · unfold delete_event; rw [if_pos hp]

/-- Closed instance of C6: admin 3 creates the sample event and the row is
stored. -/
theorem event_ops_admin_only_witness :
    insert_event (DB.mk [pAdmin] [] []) 3 evSample
      = (DB.mk [pAdmin] [evSample] [], none) := by
  have h := ((event_ops_admin_only (DB.mk [pAdmin] [] []) 3 evSample 0 id
    (by decide)).2.2 (by decide)).1
  rw [h]
  rfl

/-- C7: when an attendance record for the same (event, user) pair already
exists, a further insert by the owner fails with the unique-constraint
violation and leaves the store unchanged. -/
theorem duplicate_signup_rejected (db : DB) (uid : Nat) (req : AttendanceInsert)
    (newId : Nat) (hown : req.user_id = uid)
    (hdup : db.attendance.any
      (fun a => a.event_id == req.event_id && a.user_id == req.user_id) = true) :
    insert_attendance db uid req newId = (db, some DBError.uniqueViolation) := by
  have hpol : attendance_insert_policy uid req.user_id = true := by
    simp [attendance_insert_policy, hown]
  unfold insert_attendance
  rw [if_neg (not_not_intro hpol), if_pos hdup]

/-- Closed instance of C7: user 1 already holds record 10 on event 5, so a
second sign-up for event 5 is rejected with the constraint violation and the
store is unchanged. -/
theorem duplicate_signup_rejected_witness :
    insert_attendance (DB.mk [pMember] [evSample] [attPending]) 1
        ⟨5, 1, none, some 3⟩ 11
      = (DB.mk [pMember] [evSample] [attPending], some DBError.uniqueViolation) :=
  duplicate_signup_rejected (DB.mk [pMember] [evSample] [attPending]) 1
    ⟨5, 1, none, some 3⟩ 11 rfl (by decide)

/-- C8: a successful sign-up appends exactly one attendance record whose
hours-awarded value is the referenced event's hour value at sign-up time
(and whose status is the pending default). -/
theorem signup_hours_default (db : DB) (uid newId : Nat) (ev : Event)
    (hok : (signUpForEvent db uid ev.id ev.hours_value newId).2 = none) :
    (signUpForEvent db uid ev.id ev.hours_value newId).1.attendance
      = db.attendance ++
        [⟨newId, ev.id, uid, AttStatus.pending, ev.hours_value, none⟩] := by
  have hpol : attendance_insert_policy uid uid = true := by
    simp [attendance_insert_policy]
  unfold signUpForEvent insert_attendance at hok ⊢
  dsimp only at hok ⊢
  rw [if_neg (not_not_intro hpol)] at hok ⊢
  cases hdup : db.attendance.any (fun a => a.event_id == ev.id && a.user_id == uid) with
  | true =>
    rw [if_pos hdup] at hok
    exact absurd hok (by simp)
  | false =>
    rw [if_neg (by simp [hdup])]
    rfl

/-- Closed instance of C8: signing up for the 3-hour sample event creates a
pending record carrying 3 hours. -/
theorem signup_hours_default_witness :
    (signUpForEvent (DB.mk [pMember] [evSample] []) 1 evSample.id
        evSample.hours_value 10).1.attendance
      = [⟨10, 5, 1, AttStatus.pending, 3, none⟩] := by
  have h := signup_hours_default (DB.mk [pMember] [evSample] []) 1 10 evSample
    (by decide)
  rw [h]
  decide

/-- C10: deleting an event never touches any profile's total-hours (the
trigger fires only on attendance updates, not deletes), while an admin's
delete removes every attendance record of the event via the cascade. -/
theorem event_delete_no_hours_adjust (db : DB) (uid eventId u : Nat) :
    get_total_hours (delete_event db uid eventId).profiles u
      = get_total_hours db.profiles u
    ∧ (is_admin db.profiles uid = true →
        ((delete_event db uid eventId).attendance.any
          (fun a => a.event_id == eventId)) = false) := by
  constructor
  · unfold delete_event
    split
    · rfl
    · rfl
  · intro hadm
    unfold delete_event
    rw [if_pos hadm]
    rw [List.any_eq_false]
    intro a ha
    have hfa := (List.mem_filter.mp ha).2
    simp only [Bool.not_eq_true'] at hfa
    simp [hfa]

/-- Closed instance of C10: admin 3 deletes event 5; user 1's credited total
of 3 hours survives even though the cascaded-away record was approved. -/
theorem event_delete_no_hours_adjust_witness :
    get_total_hours
      (delete_event (DB.mk [⟨1, 1, "", "", Role.member, 3⟩, pAdmin] [evSample]
        [⟨10, 5, 1, AttStatus.approved, 3, some 2⟩]) 3 5).profiles 1
      = some 3
    ∧ ((delete_event (DB.mk [⟨1, 1, "", "", Role.member, 3⟩, pAdmin] [evSample]
        [⟨10, 5, 1, AttStatus.approved, 3, some 2⟩]) 3 5).attendance.any
        (fun a => a.event_id == 5)) = false := by
  have h := event_delete_no_hours_adjust
    (DB.mk [⟨1, 1, "", "", Role.member, 3⟩, pAdmin] [evSample]
      [⟨10, 5, 1, AttStatus.approved, 3, some 2⟩]) 3 5 1
  exact ⟨by rw [h.1]; decide, h.2 (by decide)⟩

end IcesHourHero
